import Mathlib

/-!
Shallow embedding of `src/computemodule/src/main.rs` (the fraud-detection
compute module worker): data model, rectangle annotation, the
`detect_fraud` pipeline, the blocking job fetch, the result post, and the
main loop, together with theorems settling the specification claims.

External collaborators (base64 codec, image codec, the `Zero` forgery
detector, HTTP transport) are modelled as explicit parameters, so the
theorems quantify over every possible behaviour of those collaborators.
Panics (`expect` / `unwrap` / out-of-bounds `put_pixel`) are modelled as a
distinct `panic` outcome, Rust `Result` propagation as an `err` outcome.
-/

/-- One RGBA pixel value, as in `image::Rgba<u8>` (channel values 0..=255;
channel arithmetic never happens in this program, so plain `Nat` is used). -/
structure Rgba where
  r : Nat
  g : Nat
  b : Nat
  a : Nat
deriving DecidableEq, Repr

/-- `struct Point { x: u32, y: u32 }` from the source. -/
structure Point where
  x : Nat
  y : Nat
deriving DecidableEq, Repr

/-- `struct Region { start: Point, end: Point }` from the source.
The field `end` is a Lean keyword, hence `stop`. -/
structure Region where
  start : Point
  stop : Point
deriving DecidableEq, Repr

/-- An `image::RgbaImage`: a width, a height, and a pixel value at each
coordinate (the buffer is total as a function; the in-bounds discipline
is enforced by `putPixel`, which panics outside, as the `image` crate does). -/
structure RgbaImage where
  width : Nat
  height : Nat
  pixel : Nat → Nat → Rgba

/-- `RgbaImage::put_pixel`: writes one pixel, panicking (modelled as `none`)
when the coordinate is out of bounds, exactly as the `image` crate does. -/
def putPixel (img : RgbaImage) (x y : Nat) (c : Rgba) : Option RgbaImage :=
  if x < img.width ∧ y < img.height then
    some { img with pixel := fun i j => if i = x ∧ j = y then c else img.pixel i j }
  else
    none

/-- A sequence of `put_pixel` calls with one colour, in order; the first
out-of-bounds write panics the whole sequence. -/
def putPixelSeq (img : RgbaImage) (pts : List (Nat × Nat)) (c : Rgba) : Option RgbaImage :=
  match pts with
  | [] => some img
  | (x, y) :: rest =>
    match putPixel img x y c with
    | none => none
    | some img1 => putPixelSeq img1 rest c

/-- The pixel writes issued by `draw_hollow_rect`, in source order: first the
top/bottom borders (`for x in start.x..=end.x`, writing `(x, start.y)` then
`(x, end.y)`), then the left/right borders (`for y in start.y..=end.y`,
writing `(start.x, y)` then `(end.x, y)`). An empty Rust range `a..=b` with
`a > b` matches `List.range' a (b + 1 - a)` being empty under `Nat`
subtraction. -/
def rectWrites (region : Region) : List (Nat × Nat) :=
  ((List.range' region.start.x (region.stop.x + 1 - region.start.x)).map
      (fun x => [(x, region.start.y), (x, region.stop.y)])).flatten ++
  ((List.range' region.start.y (region.stop.y + 1 - region.start.y)).map
      (fun y => [(region.start.x, y), (region.stop.x, y)])).flatten

/-- `fn draw_hollow_rect(image, region, color)`: performs the border pixel
writes of `rectWrites` in order; `none` models the `put_pixel` panic on an
out-of-bounds write. -/
def draw_hollow_rect (image : RgbaImage) (region : Region) (color : Rgba) :
    Option RgbaImage :=
  putPixelSeq image (rectWrites region) color

/-- Membership of a coordinate in the border of a region: on the top or
bottom row between the left and right columns, or on the left or right
column between the top and bottom rows (all bounds inclusive). -/
def onBorder (region : Region) (i j : Nat) : Prop :=
  (region.start.x ≤ i ∧ i ≤ region.stop.x ∧ (j = region.start.y ∨ j = region.stop.y)) ∨
  (region.start.y ≤ j ∧ j ≤ region.stop.y ∧ (i = region.start.x ∨ i = region.stop.x))

instance (region : Region) (i j : Nat) : Decidable (onBorder region i j) := by
  unfold onBorder; infer_instance

/-- Drawing a list of regions in order, each with its colour, as the loop in
`detect_fraud` does (there every colour is red); a panic in any draw panics
the whole pass. -/
def drawRegions (img : RgbaImage) (rs : List (Region × Rgba)) : Option RgbaImage :=
  match rs with
  | [] => some img
  | (r, c) :: rest =>
    match draw_hollow_rect img r c with
    | none => none
    | some img1 => drawRegions img1 rest

/-- The colour left at a coordinate after drawing a list of regions in order
onto a background colour `d`: the colour of the last region whose border
covers the coordinate, else `d`. -/
def lastCover (rs : List (Region × Rgba)) (i j : Nat) (d : Rgba) : Rgba :=
  rs.foldl (fun acc rc => if onBorder rc.1 i j then rc.2 else acc) d

/- ### Data model of the worker -/

/-- `struct Query { enc_img_in: String }`. -/
structure Query where
  enc_img_in : String
deriving DecidableEq, Repr

/-- `struct QueryResult { enc_img_out, text, result }`. -/
structure QueryResult where
  enc_img_out : String
  text : String
  result : String
deriving DecidableEq, Repr

/-- `struct ComputeModuleJobV1 { job_id, query_type, query }`. -/
structure ComputeModuleJobV1 where
  job_id : String
  query_type : String
  query : Query
deriving DecidableEq, Repr

/-- `struct Job { compute_module_job_v1 }`. -/
structure Job where
  compute_module_job_v1 : ComputeModuleJobV1
deriving DecidableEq, Repr

/-- An `image::DynamicImage`, abstracted to what `detect_fraud` consumes of
it: its RGBA8 buffer (`to_rgba8`). -/
structure DynImage where
  rgba8 : RgbaImage

/-- The part of the external `forgery_detection_zero::Zero` analysis that
`detect_fraud` consumes: `forged_regions()` of the primary analysis,
`detect_missing_grid_areas()` (a `Result<Option<Zero>, _>`, collapsed to the
inner analysis's `forged_regions()` list, the only thing read from it), and
`is_cropped()`. -/
structure ZeroOutcome where
  forged_regions : List Region
  missing_grid : Except String (Option (List Region))
  is_cropped : Bool

/-- The external collaborators of `detect_fraud`, as explicit functions:
`general_purpose::STANDARD.decode` (`none` = decode failure),
`image::load_from_memory` (`none` = load failure), the `Zero` detector,
`RgbaImage::write_to(..., Png)` (`Except.error` = encode failure), and
`general_purpose::STANDARD.encode`. Theorems quantifying over `Env` hold for
every behaviour of these collaborators. -/
structure Env where
  base64_decode : String → Option (List Nat)
  load_from_memory : List Nat → Option DynImage
  analyze : DynImage → ZeroOutcome
  png_encode : RgbaImage → Except String (List Nat)
  base64_encode : List Nat → String

/-- Outcome of running a fallible Rust computation: a returned `Ok` value, a
returned `Err` (propagated with `?`), or a process-killing panic
(`expect` / `unwrap` / out-of-bounds `put_pixel`). -/
inductive ProcessOutcome (α : Type) where
  | ok : α → ProcessOutcome α
  | err : String → ProcessOutcome α
  | crash : String → ProcessOutcome α
deriving DecidableEq, Repr

/-- The summary line pushed per region:
`format!("Forged region: from ({}, {}) to ({}, {})\n", ...)`. -/
def forged_region_line (r : Region) : String :=
  "Forged region: from (" ++ toString r.start.x ++ ", " ++ toString r.start.y ++
    ") to (" ++ toString r.stop.x ++ ", " ++ toString r.stop.y ++ ")\n"

/-- The `accumulated` string built by the region loop of `detect_fraud`:
starts empty, appends one `forged_region_line` per region in order. -/
def accumulate_text (rs : List Region) : String :=
  rs.foldl (fun acc r => acc ++ forged_region_line r) ""

/-- `let red = Rgba([255, 0, 0, 255])`. -/
def red : Rgba := ⟨255, 0, 0, 255⟩

/-- `fn detect_fraud(job_id, query) -> Result<QueryResult, Box<dyn Error>>`.
`crash` models the panics in the source: `.expect("Failed to deserialize
base64 enc image")` on base64 decode, `.expect("failed to load image")` on
image load, `.unwrap().unwrap()` on `detect_missing_grid_areas()` (an `Err`
panics with its message, a `None` with the `Option::unwrap` message), and an
out-of-bounds `put_pixel` inside the drawing loop. The only `Err` return is
the `?` on the PNG encode. The region loop accumulates the summary text and
draws each region in red; the model computes the same text and the same
drawing sequence. -/
def detect_fraud (env : Env) (query : Query) : ProcessOutcome QueryResult :=
  match env.base64_decode query.enc_img_in with
  | none => .crash "Failed to deserialize base64 enc image"
  | some image_data =>
    match env.load_from_memory image_data with
    | none => .crash "failed to load image"
    | some image =>
      let foreign_grid_areas := env.analyze image
      match foreign_grid_areas.missing_grid with
      | .error e => .crash e
      | .ok none => .crash "called Option::unwrap on a None value"
      | .ok (some missing_grid_areas) =>
        let forged_regions := foreign_grid_areas.forged_regions ++ missing_grid_areas
        let accumulated := accumulate_text forged_regions
        match drawRegions image.rgba8 (forged_regions.map (fun r => (r, red))) with
        | none => .crash "image index out of bounds"
        | some drawn =>
          if !accumulated.isEmpty then
            match env.png_encode drawn with
            | .error e => .err e
            | .ok buf =>
              .ok ⟨env.base64_encode buf, accumulated,
                if foreign_grid_areas.is_cropped then "editcrop" else "edited"⟩
          else if foreign_grid_areas.is_cropped then
            .ok ⟨query.enc_img_in, "", "cropped"⟩
          else
            .ok ⟨query.enc_img_in, "", "clean"⟩

/- ### The main loop, job fetch and result post -/

/-- Outcome of one `get_job_blocking` call as seen by the main loop's
`match`: a fetched `Job` or a propagated `reqwest::Error` message. -/
inductive FetchOutcome where
  | ok : Job → FetchOutcome
  | err : String → FetchOutcome
deriving DecidableEq, Repr

/-- Observable actions of one main-loop iteration: a result post for a job
id (one `post_result` call), an error log, a fixed-duration sleep (in
seconds), or a process-killing panic. -/
inductive LoopAction where
  | post : String → QueryResult → LoopAction
  | log_error : String → LoopAction
  | sleep : Nat → LoopAction
  | crash : String → LoopAction
deriving DecidableEq, Repr

/-- Whether an action is a result post. -/
def LoopAction.isPost : LoopAction → Bool
  | .post _ _ => true
  | _ => false

/-- One iteration of the `loop` in `main`, given the fetch outcome: on a
fetched job, run `detect_fraud` and post either the success result or the
`Failed` result (a panic inside `detect_fraud` kills the process instead);
on a fetch error, log `Something failed: {err}` and
`sleep(Duration::from_secs(1))`. -/
def loop_iteration (env : Env) (f : FetchOutcome) : List LoopAction :=
  match f with
  | .ok job =>
    let v1 := job.compute_module_job_v1
    match detect_fraud env v1.query with
    | .ok res => [.post v1.job_id res]
    | .err e => [.post v1.job_id ⟨"", e, "Failed"⟩]
    | .crash m => [.crash m]
  | .err e => [.log_error ("Something failed: " ++ e), .sleep 1]

/-- Whether an iteration ended in a process-killing panic. -/
def iteration_crashed (acts : List LoopAction) : Bool :=
  acts.any (fun a => match a with | .crash _ => true | _ => false)

/-- The `loop` of `main`, run over a finite prefix of fetch outcomes (the
real loop is infinite; the list is the fuel): each iteration's actions are
emitted in order, and a panic stops the process. -/
def run_main_loop (env : Env) : List FetchOutcome → List LoopAction
  | [] => []
  | f :: rest =>
    let acts := loop_iteration env f
    if iteration_crashed acts then acts
    else acts ++ run_main_loop env rest

/-- An HTTP response to the job GET: a status code, and the outcome
`response.json()` would give if called on the body (`Except.error` = a
deserialization failure; only consulted on status 200). -/
structure GetResponse where
  status : Nat
  body : Except String Job

/-- Outcome of one `client.get(...).send()` call: a response, or a
transport-level `reqwest::Error`. -/
inductive SendOutcome where
  | response : GetResponse → SendOutcome
  | transport_err : String → SendOutcome

/-- Observable actions of `get_job_blocking`: issuing one GET request,
logging, sleeping. (`get_job_blocking` contains no sleep at all; the model
keeps the constructor so that absence of delay is a provable statement.) -/
inductive FetchAction where
  | request : FetchAction
  | log_debug : String → FetchAction
  | log_error : String → FetchAction
  | sleep : Nat → FetchAction
deriving DecidableEq, Repr

/-- `fn get_job_blocking(...) -> Result<Job, reqwest::Error>`, run against a
finite list of send outcomes (the fuel; the real loop is infinite). Each
iteration issues one request; a transport error propagates via `?`; status
200 returns `response.json()` (well-formed or deserialization error, never
retried); 204 logs `No job found, trying again!` and loops with no delay;
any other status logs `Unexpected status code` and loops with no delay.
Returns the action trace and the call's result (`none` = fuel exhausted). -/
def get_job_blocking : List SendOutcome → List FetchAction × Option (Except String Job)
  | [] => ([], none)
  | .transport_err e :: _ => ([.request], some (.error e))
  | .response r :: rest =>
    if r.status = 200 then
      ([.request], some r.body)
    else
      let next := get_job_blocking rest
      ((.request ::
          (if r.status = 204 then FetchAction.log_debug "No job found, trying again!"
           else FetchAction.log_error "Unexpected status code") :: next.1),
        next.2)

/-- Outcome of the one `client.post(...).send()` call in `post_result`: a
response status, or a transport-level `reqwest::Error`. -/
inductive PostSendOutcome where
  | response : Nat → PostSendOutcome
  | transport_err : String → PostSendOutcome
deriving DecidableEq, Repr

/-- Observable actions of `post_result`: one POST send to
`<post_result_uri>/<job_id>`, an info log, an error log. There is no
constructor for raising or retrying: `post_result` returns `()` in the
source, and the model's trace proves it sends exactly once. -/
inductive PostAction where
  | send : String → PostAction
  | log_info : String → PostAction
  | log_error : String → PostAction
deriving DecidableEq, Repr

/-- Whether a post action is the POST send itself. -/
def PostAction.isSend : PostAction → Bool
  | .send _ => true
  | _ => false

/-- `fn post_result(client, post_result_uri, job_id, result, token)`: sends
one POST; on a response with status ≠ 204 logs
`Failed to post result: {status}`, on status 204 logs `{job_id}: Posted
result`, on a transport error logs `Error posting result: {err}`. Always
returns; never retries. -/
def post_result (job_id : String) (outcome : PostSendOutcome) : List PostAction :=
  PostAction.send job_id ::
    match outcome with
    | .response status =>
      if status ≠ 204 then [.log_error ("Failed to post result: " ++ toString status)]
      else [.log_info (job_id ++ ": Posted result")]
    | .transport_err e => [.log_error ("Error posting result: " ++ e)]

/- ### Concrete fixtures used to instantiate the theorems -/

/-- An 8×8 all-black opaque test image. -/
def testImage : RgbaImage := ⟨8, 8, fun _ _ => ⟨0, 0, 0, 255⟩⟩

/-- A region inside the bounds of `testImage`. -/
def testRegion : Region := ⟨⟨1, 1⟩, ⟨3, 3⟩⟩

/-- The result of drawing `testRegion` in red on `testImage`. -/
def testDrawn : RgbaImage := (draw_hollow_rect testImage testRegion red).getD testImage

/-- A region exceeding the bounds of `testImage`. -/
def oobRegion : Region := ⟨⟨0, 0⟩, ⟨9, 9⟩⟩

/-- A concrete input query. -/
def wQuery : Query := ⟨"aW1n"⟩

/-- A concrete fetched job. -/
def wJob : Job := ⟨⟨"job-w", "fraud", wQuery⟩⟩

/-- An environment whose detector finds nothing: every stage succeeds and
the image is clean. -/
def wEnvClean : Env :=
  ⟨fun _ => some [], fun _ => some ⟨testImage⟩,
    fun _ => ⟨[], .ok (some []), false⟩, fun _ => .ok [], fun _ => "out"⟩

/-- An environment whose detector finds one forged region and whose PNG
encode succeeds. -/
def wEnvEdited : Env :=
  ⟨fun _ => some [], fun _ => some ⟨testImage⟩,
    fun _ => ⟨[testRegion], .ok (some []), false⟩, fun _ => .ok [7], fun _ => "out"⟩

/-- An environment whose detector finds one forged region but whose PNG
encode fails with message `boom`. -/
def wEnvEncodeFail : Env :=
  ⟨fun _ => some [], fun _ => some ⟨testImage⟩,
    fun _ => ⟨[testRegion], .ok (some []), false⟩, fun _ => .error "boom", fun _ => "out"⟩

/-- An environment whose base64 decode fails (undecodable input). -/
def wEnvBadB64 : Env :=
  ⟨fun _ => none, fun _ => none,
    fun _ => ⟨[], .ok (some []), false⟩, fun _ => .ok [], fun _ => "out"⟩

/-- An environment whose detector's missing-grid analysis returns `None`. -/
def wEnvMissingNone : Env :=
  ⟨fun _ => some [], fun _ => some ⟨testImage⟩,
    fun _ => ⟨[], .ok none, false⟩, fun _ => .ok [], fun _ => "out"⟩

/-- A 200 response carrying the well-formed job `wJob`. -/
def wGetResponse : GetResponse := ⟨200, .ok wJob⟩

/- ### Lemmas about pixel writes -/

theorem putPixel_some_iff (img : RgbaImage) (x y : Nat) (c : Rgba) :
    (putPixel img x y c).isSome ↔ x < img.width ∧ y < img.height := by
  unfold putPixel
  by_cases h : x < img.width ∧ y < img.height <;> simp [h]

theorem putPixel_dims (img img' : RgbaImage) (x y : Nat) (c : Rgba)
    (h : putPixel img x y c = some img') :
    img'.width = img.width ∧ img'.height = img.height := by
  unfold putPixel at h
  by_cases hb : x < img.width ∧ y < img.height
  · simp [hb] at h
    subst h
    exact ⟨rfl, rfl⟩
  · simp [hb] at h

theorem putPixel_pixel (img img' : RgbaImage) (x y : Nat) (c : Rgba)
    (h : putPixel img x y c = some img') (i j : Nat) :
    img'.pixel i j = if i = x ∧ j = y then c else img.pixel i j := by
  unfold putPixel at h
  by_cases hb : x < img.width ∧ y < img.height
  · simp [hb] at h
    subst h
    rfl
  · simp [hb] at h

theorem putPixelSeq_dims (pts : List (Nat × Nat)) (img img' : RgbaImage) (c : Rgba)
    (h : putPixelSeq img pts c = some img') :
    img'.width = img.width ∧ img'.height = img.height := by
  induction pts generalizing img with
  | nil =>
    simp [putPixelSeq] at h
    subst h
    exact ⟨rfl, rfl⟩
  | cons p rest ih =>
    obtain ⟨x, y⟩ := p
    unfold putPixelSeq at h
    cases hp : putPixel img x y c with
    | none => rw [hp] at h; exact absurd h (by simp)
    | some img1 =>
      rw [hp] at h
      obtain ⟨hw, hh⟩ := ih img1 h
      obtain ⟨hw1, hh1⟩ := putPixel_dims img img1 x y c hp
      exact ⟨hw.trans hw1, hh.trans hh1⟩

theorem putPixelSeq_some_iff (pts : List (Nat × Nat)) (img : RgbaImage) (c : Rgba) :
    (putPixelSeq img pts c).isSome ↔
      ∀ p ∈ pts, p.1 < img.width ∧ p.2 < img.height := by
  induction pts generalizing img with
  | nil => simp [putPixelSeq]
  | cons p rest ih =>
    obtain ⟨x, y⟩ := p
    unfold putPixelSeq
    cases hp : putPixel img x y c with
    | none =>
      have hb : ¬(x < img.width ∧ y < img.height) := by
        intro hb
        have := (putPixel_some_iff img x y c).mpr hb
        rw [hp] at this
        exact absurd this (by simp)
      simp only [List.mem_cons]
      constructor
      · intro h; exact absurd h (by simp)
      · intro h
        exact absurd (h (x, y) (Or.inl rfl)) hb
    | some img1 =>
      have hb : x < img.width ∧ y < img.height := by
        have : (putPixel img x y c).isSome := by rw [hp]; rfl
        exact (putPixel_some_iff img x y c).mp this
      obtain ⟨hw, hh⟩ := putPixel_dims img img1 x y c hp
      rw [ih img1]
      simp only [List.mem_cons]
      constructor
      · intro h q hq
        rcases hq with hq | hq
        · subst hq; exact hb
        · have := h q hq
          rwa [hw, hh] at this
      · intro h q hq
        have := h q (Or.inr hq)
        rwa [← hw, ← hh] at this

theorem putPixelSeq_pixel (pts : List (Nat × Nat)) (img img' : RgbaImage) (c : Rgba)
    (h : putPixelSeq img pts c = some img') (i j : Nat) :
    img'.pixel i j = if (i, j) ∈ pts then c else img.pixel i j := by
  induction pts generalizing img with
  | nil =>
    simp [putPixelSeq] at h
    subst h
    simp
  | cons p rest ih =>
    obtain ⟨x, y⟩ := p
    unfold putPixelSeq at h
    cases hp : putPixel img x y c with
    | none => rw [hp] at h; exact absurd h (by simp)
    | some img1 =>
      rw [hp] at h
      rw [ih img1 h]
      rw [putPixel_pixel img img1 x y c hp i j]
      by_cases hmem : (i, j) ∈ rest
      · simp [hmem]
      · by_cases hxy : i = x ∧ j = y
        · obtain ⟨hx, hy⟩ := hxy
          subst hx; subst hy
          simp [hmem]
        · have : (i, j) ≠ (x, y) := by
            intro hcontra
            exact hxy ⟨congrArg Prod.fst hcontra, congrArg Prod.snd hcontra⟩
          simp [hmem, hxy, this]

theorem mem_rectWrites_iff (region : Region) (i j : Nat) :
    (i, j) ∈ rectWrites region ↔ onBorder region i j := by
  unfold rectWrites onBorder
  simp only [List.mem_append, List.mem_flatten, List.mem_map,
    exists_exists_and_eq_and, List.mem_range'_1, List.mem_cons,
    List.not_mem_nil, or_false, Prod.mk.injEq]
  constructor
  · rintro (⟨x, hx, hl⟩ | ⟨y, hy, hl⟩)
    · rcases hl with ⟨rfl, rfl⟩ | ⟨rfl, rfl⟩
      · exact Or.inl ⟨hx.1, by omega, Or.inl rfl⟩
      · exact Or.inl ⟨hx.1, by omega, Or.inr rfl⟩
    · rcases hl with ⟨rfl, rfl⟩ | ⟨rfl, rfl⟩
      · exact Or.inr ⟨hy.1, by omega, Or.inl rfl⟩
      · exact Or.inr ⟨hy.1, by omega, Or.inr rfl⟩
  · rintro (⟨h1, h2, h3 | h3⟩ | ⟨h1, h2, h3 | h3⟩)
    · exact Or.inl ⟨i, ⟨h1, by omega⟩, Or.inl ⟨rfl, h3⟩⟩
    · exact Or.inl ⟨i, ⟨h1, by omega⟩, Or.inr ⟨rfl, h3⟩⟩
    · exact Or.inr ⟨j, ⟨h1, by omega⟩, Or.inl ⟨h3, rfl⟩⟩
    · exact Or.inr ⟨j, ⟨h1, by omega⟩, Or.inr ⟨h3, rfl⟩⟩

theorem draw_hollow_rect_pixel (img img' : RgbaImage) (r : Region) (c : Rgba)
    (h : draw_hollow_rect img r c = some img') (i j : Nat) :
    img'.pixel i j = if onBorder r i j then c else img.pixel i j := by
  have := putPixelSeq_pixel (rectWrites r) img img' c h i j
  simp only [mem_rectWrites_iff] at this
  exact this

theorem draw_hollow_rect_dims (img img' : RgbaImage) (r : Region) (c : Rgba)
    (h : draw_hollow_rect img r c = some img') :
    img'.width = img.width ∧ img'.height = img.height :=
  putPixelSeq_dims (rectWrites r) img img' c h

theorem draw_hollow_rect_some_iff (img : RgbaImage) (r : Region) (c : Rgba) :
    (draw_hollow_rect img r c).isSome ↔
      ∀ p ∈ rectWrites r, p.1 < img.width ∧ p.2 < img.height :=
  putPixelSeq_some_iff (rectWrites r) img c

theorem drawRegions_pixel (rs : List (Region × Rgba)) (img img' : RgbaImage)
    (h : drawRegions img rs = some img') (i j : Nat) :
    img'.pixel i j = lastCover rs i j (img.pixel i j) := by
  induction rs generalizing img with
  | nil =>
    simp [drawRegions] at h
    subst h
    rfl
  | cons rc rest ih =>
    obtain ⟨r, c⟩ := rc
    unfold drawRegions at h
    cases hd : draw_hollow_rect img r c with
    | none => rw [hd] at h; exact absurd h (by simp)
    | some img1 =>
      rw [hd] at h
      rw [ih img1 h, draw_hollow_rect_pixel img img1 r c hd i j]
      simp [lastCover]

/- ### String lemmas for the summary text -/

theorem string_foldl_append (l : List String) (acc : String) :
    l.foldl (fun a s => a ++ s) acc = acc ++ l.foldl (fun a s => a ++ s) "" := by
  induction l generalizing acc with
  | nil => simp
  | cons s rest ih =>
    simp only [List.foldl_cons]
    rw [ih (acc ++ s), ih ("" ++ s)]
    simp [String.append_assoc]

theorem string_join_cons (s : String) (l : List String) :
    String.join (s :: l) = s ++ String.join l := by
  show List.foldl (fun a b => a ++ b) "" (s :: l) = _
  simp only [List.foldl_cons]
  rw [string_foldl_append l ("" ++ s)]
  rfl

theorem accumulate_foldl_append (rs : List Region) (acc : String) :
    rs.foldl (fun a r => a ++ forged_region_line r) acc
      = acc ++ rs.foldl (fun a r => a ++ forged_region_line r) "" := by
  induction rs generalizing acc with
  | nil => simp
  | cons r rest ih =>
    simp only [List.foldl_cons]
    rw [ih (acc ++ forged_region_line r), ih ("" ++ forged_region_line r)]
    simp [String.append_assoc]

theorem accumulate_text_eq_join (rs : List Region) :
    accumulate_text rs = String.join (rs.map forged_region_line) := by
  induction rs with
  | nil => rfl
  | cons r rest ih =>
    unfold accumulate_text at ih ⊢
    simp only [List.foldl_cons, List.map_cons, string_join_cons]
    rw [accumulate_foldl_append rest ("" ++ forged_region_line r), ih]
    rfl

theorem forged_region_line_length (r : Region) :
    0 < (forged_region_line r).length := by
  unfold forged_region_line
  simp only [String.length_append]
  have h : 0 < ("Forged region: from (" : String).length := by decide
  omega

theorem accumulate_text_isEmpty_eq (rs : List Region) :
    (accumulate_text rs).isEmpty = rs.isEmpty := by
  cases rs with
  | nil => rfl
  | cons r rest =>
    simp only [List.isEmpty_cons]
    rw [Bool.eq_false_iff]
    intro h
    have hempty := (String.isEmpty_iff _).mp h
    have hlen : (accumulate_text (r :: rest)).length = 0 := by
      rw [hempty]; rfl
    unfold accumulate_text at hlen
    simp only [List.foldl_cons] at hlen
    rw [accumulate_foldl_append rest ("" ++ forged_region_line r)] at hlen
    rw [String.length_append] at hlen
    have h1 : ("" ++ forged_region_line r).length = (forged_region_line r).length := by
      rfl
    rw [h1] at hlen
    have := forged_region_line_length r
    omega

/- ### Branch lemmas for detect_fraud -/

theorem detect_fraud_eq_branch (env : Env) (query : Query) (data : List Nat)
    (img : DynImage) (missing : List Region)
    (h1 : env.base64_decode query.enc_img_in = some data)
    (h2 : env.load_from_memory data = some img)
    (h3 : (env.analyze img).missing_grid = .ok (some missing)) :
    detect_fraud env query =
      (match drawRegions img.rgba8
          (((env.analyze img).forged_regions ++ missing).map (fun r => (r, red))) with
       | none => .crash "image index out of bounds"
       | some drawn =>
         if !(accumulate_text ((env.analyze img).forged_regions ++ missing)).isEmpty then
           match env.png_encode drawn with
           | .error e => .err e
           | .ok buf =>
             .ok ⟨env.base64_encode buf,
               accumulate_text ((env.analyze img).forged_regions ++ missing),
               if (env.analyze img).is_cropped then "editcrop" else "edited"⟩
         else if (env.analyze img).is_cropped then
           .ok ⟨query.enc_img_in, "", "cropped"⟩
         else
           .ok ⟨query.enc_img_in, "", "clean"⟩) := by
  simp only [detect_fraud, h1, h2, h3]

theorem detect_fraud_crash_base64 (env : Env) (query : Query)
    (h : env.base64_decode query.enc_img_in = none) :
    detect_fraud env query = .crash "Failed to deserialize base64 enc image" := by
  simp only [detect_fraud, h]

theorem detect_fraud_crash_load (env : Env) (query : Query) (data : List Nat)
    (h1 : env.base64_decode query.enc_img_in = some data)
    (h2 : env.load_from_memory data = none) :
    detect_fraud env query = .crash "failed to load image" := by
  simp only [detect_fraud, h1, h2]

theorem detect_fraud_crash_missing_none (env : Env) (query : Query) (data : List Nat)
    (img : DynImage)
    (h1 : env.base64_decode query.enc_img_in = some data)
    (h2 : env.load_from_memory data = some img)
    (h3 : (env.analyze img).missing_grid = .ok none) :
    detect_fraud env query = .crash "called Option::unwrap on a None value" := by
  simp only [detect_fraud, h1, h2, h3]

theorem detect_fraud_crash_missing_err (env : Env) (query : Query) (data : List Nat)
    (img : DynImage) (e : String)
    (h1 : env.base64_decode query.enc_img_in = some data)
    (h2 : env.load_from_memory data = some img)
    (h3 : (env.analyze img).missing_grid = .error e) :
    detect_fraud env query = .crash e := by
  simp only [detect_fraud, h1, h2, h3]

theorem detect_fraud_empty (env : Env) (query : Query) (data : List Nat)
    (img : DynImage) (missing : List Region)
    (h1 : env.base64_decode query.enc_img_in = some data)
    (h2 : env.load_from_memory data = some img)
    (h3 : (env.analyze img).missing_grid = .ok (some missing))
    (hm : (env.analyze img).forged_regions ++ missing = []) :
    detect_fraud env query =
      (if (env.analyze img).is_cropped then .ok ⟨query.enc_img_in, "", "cropped"⟩
       else .ok ⟨query.enc_img_in, "", "clean"⟩) := by
  rw [detect_fraud_eq_branch env query data img missing h1 h2 h3, hm]
  rfl

theorem detect_fraud_nonempty (env : Env) (query : Query) (data : List Nat)
    (img : DynImage) (missing : List Region) (drawn : RgbaImage)
    (h1 : env.base64_decode query.enc_img_in = some data)
    (h2 : env.load_from_memory data = some img)
    (h3 : (env.analyze img).missing_grid = .ok (some missing))
    (hm : (env.analyze img).forged_regions ++ missing ≠ [])
    (hd : drawRegions img.rgba8
      (((env.analyze img).forged_regions ++ missing).map (fun r => (r, red))) = some drawn) :
    detect_fraud env query =
      (match env.png_encode drawn with
       | .error e => .err e
       | .ok buf =>
         .ok ⟨env.base64_encode buf,
           accumulate_text ((env.analyze img).forged_regions ++ missing),
           if (env.analyze img).is_cropped then "editcrop" else "edited"⟩) := by
  rw [detect_fraud_eq_branch env query data img missing h1 h2 h3, hd]
  have hie : (accumulate_text ((env.analyze img).forged_regions ++ missing)).isEmpty
      = false := by
    rw [accumulate_text_isEmpty_eq]
    cases hc : (env.analyze img).forged_regions ++ missing with
    | nil => exact absurd hc hm
    | cons a l => rfl
  rw [hie]
  rfl

/- ### Safety lemmas for the drawing pass -/

theorem draw_hollow_rect_safe (img : RgbaImage) (r : Region) (c : Rgba)
    (hx : r.start.x ≤ r.stop.x) (hy : r.start.y ≤ r.stop.y)
    (hw : r.stop.x < img.width) (hh : r.stop.y < img.height) :
    (draw_hollow_rect img r c).isSome := by
  rw [draw_hollow_rect_some_iff]
  intro p hp
  obtain ⟨i, j⟩ := p
  rw [mem_rectWrites_iff] at hp
  unfold onBorder at hp
  rcases hp with ⟨h1, h2, h3 | h3⟩ | ⟨h1, h2, h3 | h3⟩ <;>
    exact ⟨by omega, by omega⟩

theorem drawRegions_safe (rs : List (Region × Rgba)) (img : RgbaImage)
    (h : ∀ rc ∈ rs, rc.1.start.x ≤ rc.1.stop.x ∧ rc.1.start.y ≤ rc.1.stop.y ∧
      rc.1.stop.x < img.width ∧ rc.1.stop.y < img.height) :
    (drawRegions img rs).isSome := by
  induction rs generalizing img with
  | nil => simp [drawRegions]
  | cons rc rest ih =>
    obtain ⟨r, c⟩ := rc
    obtain ⟨hx, hy, hw, hh⟩ := h (r, c) (List.mem_cons_self _ _)
    have hs := draw_hollow_rect_safe img r c hx hy hw hh
    unfold drawRegions
    cases hd : draw_hollow_rect img r c with
    | none => rw [hd] at hs; exact absurd hs (by simp)
    | some img1 =>
      obtain ⟨hw1, hh1⟩ := draw_hollow_rect_dims img img1 r c hd
      refine ih img1 (fun q hq => ?_)
      obtain ⟨a, b, c2, d⟩ := h q (List.mem_cons_of_mem _ hq)
      exact ⟨a, b, hw1 ▸ c2, hh1 ▸ d⟩

/- ### The fetch loop never sleeps -/

theorem get_job_blocking_no_sleep (sends : List SendOutcome) (n : Nat) :
    FetchAction.sleep n ∉ (get_job_blocking sends).1 := by
  induction sends with
  | nil => simp [get_job_blocking]
  | cons s rest ih =>
    cases s with
    | transport_err e => simp [get_job_blocking]
    | response r =>
      by_cases h200 : r.status = 200
      · simp [get_job_blocking, h200]
      · by_cases h204 : r.status = 204
        · simp [get_job_blocking, h200, h204]
          exact ih
        · simp [get_job_blocking, h200, h204]
          exact ih

/- ### Result-shape lemmas for detect_fraud -/

theorem detect_fraud_empty_clean (env : Env) (query : Query) (data : List Nat)
    (img : DynImage) (missing : List Region)
    (h1 : env.base64_decode query.enc_img_in = some data)
    (h2 : env.load_from_memory data = some img)
    (h3 : (env.analyze img).missing_grid = .ok (some missing))
    (hm : (env.analyze img).forged_regions ++ missing = [])
    (hc : (env.analyze img).is_cropped = false) :
    detect_fraud env query = .ok ⟨query.enc_img_in, "", "clean"⟩ := by
  rw [detect_fraud_empty env query data img missing h1 h2 h3 hm, hc]
  rfl

theorem detect_fraud_empty_cropped (env : Env) (query : Query) (data : List Nat)
    (img : DynImage) (missing : List Region)
    (h1 : env.base64_decode query.enc_img_in = some data)
    (h2 : env.load_from_memory data = some img)
    (h3 : (env.analyze img).missing_grid = .ok (some missing))
    (hm : (env.analyze img).forged_regions ++ missing = [])
    (hc : (env.analyze img).is_cropped = true) :
    detect_fraud env query = .ok ⟨query.enc_img_in, "", "cropped"⟩ := by
  rw [detect_fraud_empty env query data img missing h1 h2 h3 hm, hc]
  rfl

theorem detect_fraud_nonempty_ok (env : Env) (query : Query) (data : List Nat)
    (img : DynImage) (missing : List Region) (drawn : RgbaImage) (buf : List Nat)
    (h1 : env.base64_decode query.enc_img_in = some data)
    (h2 : env.load_from_memory data = some img)
    (h3 : (env.analyze img).missing_grid = .ok (some missing))
    (hm : (env.analyze img).forged_regions ++ missing ≠ [])
    (hd : drawRegions img.rgba8
      (((env.analyze img).forged_regions ++ missing).map (fun r => (r, red))) = some drawn)
    (hp : env.png_encode drawn = .ok buf) :
    detect_fraud env query =
      .ok ⟨env.base64_encode buf,
        accumulate_text ((env.analyze img).forged_regions ++ missing),
        if (env.analyze img).is_cropped then "editcrop" else "edited"⟩ := by
  rw [detect_fraud_nonempty env query data img missing drawn h1 h2 h3 hm hd, hp]

theorem detect_fraud_nonempty_err (env : Env) (query : Query) (data : List Nat)
    (img : DynImage) (missing : List Region) (drawn : RgbaImage) (e : String)
    (h1 : env.base64_decode query.enc_img_in = some data)
    (h2 : env.load_from_memory data = some img)
    (h3 : (env.analyze img).missing_grid = .ok (some missing))
    (hm : (env.analyze img).forged_regions ++ missing ≠ [])
    (hd : drawRegions img.rgba8
      (((env.analyze img).forged_regions ++ missing).map (fun r => (r, red))) = some drawn)
    (hp : env.png_encode drawn = .error e) :
    detect_fraud env query = .err e := by
  rw [detect_fraud_nonempty env query data img missing drawn h1 h2 h3 hm hd, hp]

theorem detect_fraud_crash_draw (env : Env) (query : Query) (data : List Nat)
    (img : DynImage) (missing : List Region)
    (h1 : env.base64_decode query.enc_img_in = some data)
    (h2 : env.load_from_memory data = some img)
    (h3 : (env.analyze img).missing_grid = .ok (some missing))
    (hd : drawRegions img.rgba8
      (((env.analyze img).forged_regions ++ missing).map (fun r => (r, red))) = none) :
    detect_fraud env query = .crash "image index out of bounds" := by
  rw [detect_fraud_eq_branch env query data img missing h1 h2 h3, hd]

/- ### Claim theorems -/

/-- Claim C1, counterexample: for the job `wJob` fetched with base64 input
the decoder rejects, `detect_fraud` panics via `expect` and the iteration is
a process crash with zero posts — no `Failed` QueryResult is posted for the
job id, contradicting the claim that every job-processing failure is caught
at the boundary and converted into a posted `Failed` result. -/
theorem C1_counterexample :
    loop_iteration wEnvBadB64 (.ok wJob) =
      [LoopAction.crash "Failed to deserialize base64 enc image"] ∧
    (loop_iteration wEnvBadB64 (.ok wJob)).countP LoopAction.isPost = 0 :=
  ⟨rfl, rfl⟩

/-- Claim C1 (amended): a job-processing failure returned as an error from
`detect_fraud` — in this code only the PNG-encode failure, propagated with
`?` — is caught at the main-loop boundary and converted into the posted
QueryResult ⟨"", message, "Failed"⟩ for that job id; bad base64 input and an
undecodable image instead panic via `expect`, killing the process with no
post. -/
theorem C1_amended_failure_funnel (env : Env) (job : Job) :
    (∀ e, detect_fraud env job.compute_module_job_v1.query = .err e →
      loop_iteration env (.ok job) =
        [.post job.compute_module_job_v1.job_id ⟨"", e, "Failed"⟩]) ∧
    (env.base64_decode job.compute_module_job_v1.query.enc_img_in = none →
      loop_iteration env (.ok job) =
        [.crash "Failed to deserialize base64 enc image"]) ∧
    (∀ data, env.base64_decode job.compute_module_job_v1.query.enc_img_in = some data →
      env.load_from_memory data = none →
      loop_iteration env (.ok job) = [.crash "failed to load image"]) ∧
    (∀ data img, env.base64_decode job.compute_module_job_v1.query.enc_img_in = some data →
      env.load_from_memory data = some img →
      (env.analyze img).missing_grid = .ok none →
      loop_iteration env (.ok job) =
        [.crash "called Option::unwrap on a None value"]) := by
  refine ⟨?_, ?_, ?_, ?_⟩
  · intro e he
    simp [loop_iteration, he]
  · intro h
    simp [loop_iteration, detect_fraud_crash_base64 env _ h]
  · intro data h1 h2
    simp [loop_iteration, detect_fraud_crash_load env _ data h1 h2]
  · intro data img h1 h2 h3
    simp [loop_iteration, detect_fraud_crash_missing_none env _ data img h1 h2 h3]

/-- Witness for C1: a concrete run in which the PNG encode fails with
message `boom`; the iteration posts exactly the `Failed` result. -/
theorem C1_witness :
    loop_iteration wEnvEncodeFail (.ok wJob) =
      [LoopAction.post "job-w" ⟨"", "boom", "Failed"⟩] :=
  (C1_amended_failure_funnel wEnvEncodeFail wJob).1 "boom" rfl

/-- Claim C2, counterexample: the job `wJob` is successfully fetched, but
its processing panics (bad base64), so the iteration issues zero posts —
refuting "never zero posts" for every fetched job. -/
theorem C2_counterexample :
    (loop_iteration wEnvBadB64 (.ok wJob)).countP LoopAction.isPost = 0 ∧
    (loop_iteration wEnvBadB64 (.ok wJob)).countP LoopAction.isPost ≠ 1 := by
  exact ⟨rfl, by decide⟩

/-- Claim C2 (amended): for every fetched job whose processing terminates
normally (`detect_fraud` returns `Ok` or `Err` rather than panicking),
exactly one result post is issued in that iteration; when `detect_fraud`
panics, the process crashes and zero posts are issued. -/
theorem C2_amended_exactly_one_post (env : Env) (job : Job) :
    ((∀ m, detect_fraud env job.compute_module_job_v1.query ≠ .crash m) →
      (loop_iteration env (.ok job)).countP LoopAction.isPost = 1) ∧
    (∀ m, detect_fraud env job.compute_module_job_v1.query = .crash m →
      (loop_iteration env (.ok job)).countP LoopAction.isPost = 0) := by
  constructor
  · intro h
    cases hd : detect_fraud env job.compute_module_job_v1.query with
    | ok res => simp [loop_iteration, hd, List.countP_cons, LoopAction.isPost]
    | err e => simp [loop_iteration, hd, List.countP_cons, LoopAction.isPost]
    | crash m => exact absurd hd (h m)
  · intro m hm
    simp [loop_iteration, hm, List.countP_cons, LoopAction.isPost]

/-- Witness for C2: a concrete clean run posts exactly once. -/
theorem C2_witness :
    (loop_iteration wEnvClean (.ok wJob)).countP LoopAction.isPost = 1 :=
  (C2_amended_exactly_one_post wEnvClean wJob).1 (fun m h => by
    rw [show detect_fraud wEnvClean wJob.compute_module_job_v1.query
        = .ok ⟨"aW1n", "", "clean"⟩ from rfl] at h
    exact ProcessOutcome.noConfusion h)

/-- Claim C3 (confirmed): the four-way decision table of `detect_fraud`.
With the merged region sequence empty: classification `clean` when not
cropped and `cropped` when cropped, and in both cases the output image is
the input base64 string itself (byte-for-byte pass-through, no re-encoding)
with empty summary text. With the merged sequence non-empty: classification
`edited` when not cropped and `editcrop` when cropped, and the output is the
annotated RGBA buffer PNG-encoded then base64-encoded. -/
theorem C3_decision_table (env : Env) (query : Query) (data : List Nat)
    (img : DynImage) (missing : List Region)
    (h1 : env.base64_decode query.enc_img_in = some data)
    (h2 : env.load_from_memory data = some img)
    (h3 : (env.analyze img).missing_grid = .ok (some missing)) :
    ((env.analyze img).forged_regions ++ missing = [] →
      ((env.analyze img).is_cropped = false →
        detect_fraud env query = .ok ⟨query.enc_img_in, "", "clean"⟩) ∧
      ((env.analyze img).is_cropped = true →
        detect_fraud env query = .ok ⟨query.enc_img_in, "", "cropped"⟩)) ∧
    (∀ drawn buf, (env.analyze img).forged_regions ++ missing ≠ [] →
      drawRegions img.rgba8
        (((env.analyze img).forged_regions ++ missing).map (fun r => (r, red)))
          = some drawn →
      env.png_encode drawn = .ok buf →
      ((env.analyze img).is_cropped = false →
        detect_fraud env query = .ok ⟨env.base64_encode buf,
          accumulate_text ((env.analyze img).forged_regions ++ missing), "edited"⟩) ∧
      ((env.analyze img).is_cropped = true →
        detect_fraud env query = .ok ⟨env.base64_encode buf,
          accumulate_text ((env.analyze img).forged_regions ++ missing), "editcrop"⟩)) := by
  constructor
  · intro hm
    exact ⟨fun hc => detect_fraud_empty_clean env query data img missing h1 h2 h3 hm hc,
      fun hc => detect_fraud_empty_cropped env query data img missing h1 h2 h3 hm hc⟩
  · intro drawn buf hm hd hp
    constructor
    · intro hc
      rw [detect_fraud_nonempty_ok env query data img missing drawn buf h1 h2 h3 hm hd hp,
        hc]
      rfl
    · intro hc
      rw [detect_fraud_nonempty_ok env query data img missing drawn buf h1 h2 h3 hm hd hp,
        hc]
      rfl

/-- Witness for C3: a clean run passes the input through unchanged, and an
edited run returns the re-encoded annotated image. -/
theorem C3_witness :
    detect_fraud wEnvClean wQuery = .ok ⟨"aW1n", "", "clean"⟩ ∧
    detect_fraud wEnvEdited wQuery =
      .ok ⟨"out", accumulate_text [testRegion], "edited"⟩ := by
  constructor
  · exact ((C3_decision_table wEnvClean wQuery [] ⟨testImage⟩ [] rfl rfl rfl).1 rfl).1 rfl
  · exact ((C3_decision_table wEnvEdited wQuery [] ⟨testImage⟩ [] rfl rfl rfl).2
      ((drawRegions testImage ([testRegion].map (fun r => (r, red)))).getD testImage) [7]
      (by decide) rfl rfl).1 rfl

/-- Claim C4 (confirmed): for a region with `start ≤ end` component-wise
drawn successfully, every border pixel (top row, bottom row, left column,
right column, inclusive of start and end) holds the highlight colour, every
strictly interior pixel is unchanged, and when a list of rectangles is drawn
in order, the colour at any coordinate is that of the last region whose
border covers it (later draws take precedence). -/
theorem C4_hollow_rect_rendering (img img' : RgbaImage) (r : Region) (c : Rgba)
    (hx : r.start.x ≤ r.stop.x) (hy : r.start.y ≤ r.stop.y)
    (h : draw_hollow_rect img r c = some img') :
    (∀ i j, onBorder r i j → img'.pixel i j = c) ∧
    (∀ i j, r.start.x < i → i < r.stop.x → r.start.y < j → j < r.stop.y →
      img'.pixel i j = img.pixel i j) ∧
    (∀ rs img2, drawRegions img rs = some img2 →
      ∀ i j, img2.pixel i j = lastCover rs i j (img.pixel i j)) := by
  refine ⟨?_, ?_, ?_⟩
  · intro i j hb
    rw [draw_hollow_rect_pixel img img' r c h i j, if_pos hb]
  · intro i j hi1 hi2 hj1 hj2
    have hnb : ¬onBorder r i j := by
      intro hb
      unfold onBorder at hb
      rcases hb with ⟨_, _, hj | hj⟩ | ⟨_, _, hi | hi⟩ <;> omega
    rw [draw_hollow_rect_pixel img img' r c h i j, if_neg hnb]
  · intro rs img2 hd i j
    exact drawRegions_pixel rs img img2 hd i j

/-- Witness for C4: drawing `testRegion` on the all-black `testImage` makes
the border pixel (2, 1) red and leaves the interior pixel (2, 2) black. -/
theorem C4_witness :
    testDrawn.pixel 2 1 = red ∧ testDrawn.pixel 2 2 = ⟨0, 0, 0, 255⟩ := by
  have h : draw_hollow_rect testImage testRegion red = some testDrawn := rfl
  obtain ⟨hb, hin, _⟩ :=
    C4_hollow_rect_rendering testImage testDrawn testRegion red (by decide) (by decide) h
  refine ⟨hb 2 1 ?_, ?_⟩
  · show onBorder testRegion 2 1
    decide
  · have hp := hin 2 2 (by decide) (by decide) (by decide) (by decide)
    rw [hp]
    rfl

/-- Claim C5 (confirmed): a successful `detect_fraud` run's summary text is
exactly the concatenation of one `Forged region: from (x1, y1) to (x2, y2)`
line per region of the merged sequence, in merge order (primary forged
regions first, then missing-grid regions, each preserving its order). -/
theorem C5_summary_text (env : Env) (query : Query) (data : List Nat)
    (img : DynImage) (missing : List Region) (res : QueryResult)
    (h1 : env.base64_decode query.enc_img_in = some data)
    (h2 : env.load_from_memory data = some img)
    (h3 : (env.analyze img).missing_grid = .ok (some missing))
    (h4 : detect_fraud env query = .ok res) :
    res.text = String.join
      (((env.analyze img).forged_regions ++ missing).map forged_region_line) := by
  by_cases hm : (env.analyze img).forged_regions ++ missing = []
  · rw [hm]
    cases hc : (env.analyze img).is_cropped with
    | false =>
      rw [detect_fraud_empty_clean env query data img missing h1 h2 h3 hm hc] at h4
      injection h4 with h5
      rw [← h5]
      rfl
    | true =>
      rw [detect_fraud_empty_cropped env query data img missing h1 h2 h3 hm hc] at h4
      injection h4 with h5
      rw [← h5]
      rfl
  · cases hd : drawRegions img.rgba8
        (((env.analyze img).forged_regions ++ missing).map (fun r => (r, red))) with
    | none =>
      rw [detect_fraud_crash_draw env query data img missing h1 h2 h3 hd] at h4
      exact ProcessOutcome.noConfusion h4
    | some drawn =>
      cases hp : env.png_encode drawn with
      | error e =>
        rw [detect_fraud_nonempty_err env query data img missing drawn e
          h1 h2 h3 hm hd hp] at h4
        exact ProcessOutcome.noConfusion h4
      | ok buf =>
        rw [detect_fraud_nonempty_ok env query data img missing drawn buf
          h1 h2 h3 hm hd hp] at h4
        injection h4 with h5
        rw [← h5]
        exact accumulate_text_eq_join _

/-- Witness for C5: the edited run over one region `(1,1)-(3,3)` yields
exactly its one summary line. -/
theorem C5_witness :
    (QueryResult.mk "out" "Forged region: from (1, 1) to (3, 3)\n" "edited").text =
      String.join
        (((wEnvEdited.analyze ⟨testImage⟩).forged_regions ++ []).map forged_region_line) :=
  C5_summary_text wEnvEdited wQuery [] ⟨testImage⟩ []
    ⟨"out", "Forged region: from (1, 1) to (3, 3)\n", "edited"⟩ rfl rfl rfl (by decide)

/-- Claim C6, counterexample: with the detector's missing-grid analysis
returning `None`, `detect_fraud` panics via `unwrap` — a process crash, not
a propagated error caught as a failed job — contradicting the claim that
this failure is an explicit error path rather than a panic. -/
theorem C6_counterexample :
    detect_fraud wEnvMissingNone wQuery = .crash "called Option::unwrap on a None value" ∧
    loop_iteration wEnvMissingNone (.ok wJob) =
      [LoopAction.crash "called Option::unwrap on a None value"] :=
  ⟨rfl, rfl⟩

/-- Claim C6 (amended): if the detector's missing-grid analysis returns an
empty (`None`) or erroneous outcome, `detect_fraud` panics via
`.unwrap().unwrap()` — the job is not processed further and no fallback to
forged-region-only results happens, but the failure is a process-killing
panic, not a propagated error. -/
theorem C6_amended_unwrap_crash (env : Env) (query : Query) (data : List Nat)
    (img : DynImage)
    (h1 : env.base64_decode query.enc_img_in = some data)
    (h2 : env.load_from_memory data = some img) :
    ((env.analyze img).missing_grid = .ok none →
      detect_fraud env query = .crash "called Option::unwrap on a None value") ∧
    (∀ e, (env.analyze img).missing_grid = .error e →
      detect_fraud env query = .crash e) :=
  ⟨fun h3 => detect_fraud_crash_missing_none env query data img h1 h2 h3,
    fun e h3 => detect_fraud_crash_missing_err env query data img e h1 h2 h3⟩

/-- Witness for C6: the `None` missing-grid outcome crashes a concrete run. -/
theorem C6_witness :
    detect_fraud wEnvMissingNone ⟨"other"⟩ =
      .crash "called Option::unwrap on a None value" :=
  (C6_amended_unwrap_crash wEnvMissingNone ⟨"other"⟩ [] ⟨testImage⟩ rfl rfl).1 rfl

/-- Claim C7 (confirmed): `get_job_blocking` returns a Job only from a 200
response with a well-formed body; a 200 with a malformed body returns the
deserialization error to the caller with no internal retry; a 204 never
yields a Job and is immediately followed by the next request; any other
status is logged and immediately retried; a transport failure propagates to
the caller; and no branch ever sleeps. -/
theorem C7_get_job_blocking_policy (rest : List SendOutcome) (r : GetResponse)
    (e : String) :
    (r.status = 200 →
      get_job_blocking (.response r :: rest) = ([.request], some r.body)) ∧
    (r.status = 204 →
      get_job_blocking (.response r :: rest) =
        (.request :: .log_debug "No job found, trying again!" ::
            (get_job_blocking rest).1,
          (get_job_blocking rest).2)) ∧
    (r.status ≠ 200 → r.status ≠ 204 →
      get_job_blocking (.response r :: rest) =
        (.request :: .log_error "Unexpected status code" :: (get_job_blocking rest).1,
          (get_job_blocking rest).2)) ∧
    (get_job_blocking (.transport_err e :: rest) = ([.request], some (.error e))) ∧
    (∀ sends n, FetchAction.sleep n ∉ (get_job_blocking sends).1) := by
  refine ⟨?_, ?_, ?_, rfl, fun sends n => get_job_blocking_no_sleep sends n⟩
  · intro h
    simp [get_job_blocking, h]
  · intro h
    simp [get_job_blocking, h]
  · intro h200 h204
    simp [get_job_blocking, h200, h204]

/-- Witness for C7: a single 200 response with the well-formed job `wJob`
returns that job after one request. -/
theorem C7_witness :
    get_job_blocking [.response wGetResponse] = ([.request], some (.ok wJob)) :=
  (C7_get_job_blocking_policy [] wGetResponse "refused").1 rfl

/-- Claim C8 (confirmed): on a fetch failure the main loop logs
`Something failed: {err}`, sleeps exactly 1 second, and retries the whole
iteration — the loop continues with the remaining fetch outcomes and never
terminates on a fetch failure. -/
theorem C8_fetch_failure_backoff (env : Env) (e : String) (rest : List FetchOutcome) :
    loop_iteration env (.err e) =
      [.log_error ("Something failed: " ++ e), .sleep 1] ∧
    run_main_loop env (.err e :: rest) =
      .log_error ("Something failed: " ++ e) :: .sleep 1 :: run_main_loop env rest :=
  ⟨rfl, rfl⟩

/-- Claim C9 (confirmed): `post_result` never raises to its caller — it
always sends exactly one POST; a non-204 status or a transport failure is
logged and swallowed with no retry; and the main loop proceeds to the next
job regardless. -/
theorem C9_post_fire_and_forget (job_id : String) (status : Nat) (e : String)
    (env : Env) (f : FetchOutcome) (rest : List FetchOutcome) :
    ((post_result job_id (.response status)).countP PostAction.isSend = 1) ∧
    ((post_result job_id (.transport_err e)).countP PostAction.isSend = 1) ∧
    (status ≠ 204 → post_result job_id (.response status) =
      [.send job_id, .log_error ("Failed to post result: " ++ toString status)]) ∧
    (status = 204 → post_result job_id (.response status) =
      [.send job_id, .log_info (job_id ++ ": Posted result")]) ∧
    (post_result job_id (.transport_err e) =
      [.send job_id, .log_error ("Error posting result: " ++ e)]) ∧
    (iteration_crashed (loop_iteration env f) = false →
      run_main_loop env (f :: rest) = loop_iteration env f ++ run_main_loop env rest) := by
  refine ⟨?_, rfl, ?_, ?_, rfl, ?_⟩
  · by_cases h : status = 204 <;>
      simp [post_result, h, List.countP_cons, List.countP_nil, PostAction.isSend]
  · intro h
    simp [post_result, h]
  · intro h
    simp [post_result, h]
  · intro h
    simp [run_main_loop, h]

/-- Witness for C9: posting with a 500 response sends once and only logs. -/
theorem C9_witness :
    post_result "job-w" (.response 500) =
      [.send "job-w", .log_error ("Failed to post result: " ++ toString (500 : Nat))] ∧
    (post_result "job-w" (.response 500)).countP PostAction.isSend = 1 :=
  ⟨(C9_post_fire_and_forget "job-w" 500 "e" wEnvClean (.err "e") []).2.2.1 (by decide),
    (C9_post_fire_and_forget "job-w" 500 "e" wEnvClean (.err "e") []).1⟩

/-- Claim C10 (confirmed): drawing a hollow rectangle performs no
out-of-bounds pixel write when the region satisfies `start ≤ end`
component-wise and `end.x < width`, `end.y < height` — and the whole
annotation pass over a list of such regions cannot panic; but for a region
exceeding the image dimensions the out-of-bounds `put_pixel` is reached
(the draw returns the panic outcome). -/
theorem C10_draw_bounds_safety :
    (∀ (img : RgbaImage) (r : Region) (c : Rgba),
      r.start.x ≤ r.stop.x → r.start.y ≤ r.stop.y →
      r.stop.x < img.width → r.stop.y < img.height →
      (draw_hollow_rect img r c).isSome) ∧
    (∀ (img : RgbaImage) (rs : List (Region × Rgba)),
      (∀ rc ∈ rs, rc.1.start.x ≤ rc.1.stop.x ∧ rc.1.start.y ≤ rc.1.stop.y ∧
        rc.1.stop.x < img.width ∧ rc.1.stop.y < img.height) →
      (drawRegions img rs).isSome) ∧
    draw_hollow_rect testImage oobRegion red = none :=
  ⟨fun img r c hx hy hw hh => draw_hollow_rect_safe img r c hx hy hw hh,
    fun img rs h => drawRegions_safe rs img h, rfl⟩

/-- Witness for C10: the in-bounds `testRegion` draws successfully on
`testImage`. -/
theorem C10_witness :
    (draw_hollow_rect testImage testRegion red).isSome = true :=
  C10_draw_bounds_safety.1 testImage testRegion red
    (by decide) (by decide) (by decide) (by decide)
